import Mathlib

/-!
Verification of the analytical core of the tax-invoice dashboard
(`utils.py`, `data_processor.py`, `app.py`).

The embedding models a transaction table as a list of rows whose five
required columns (`작성월`, `거래유형`, `발행형태`, `공급가액`, `세액`) are
`Option`-valued: `none` is a pandas `NaN` / missing cell.  Monetary amounts
are rationals (the source holds Python ints/floats; every arithmetic step
in the analysed functions — sums, means, quantile interpolation, IQR
fences, percentages — is exact rational arithmetic).  The single
irrational quantity produced by the source, a standard deviation
(`pandas.Series.std`), is represented symbolically as the square root of
an exactly-computed sample variance.

The `IsolationForest` of scikit-learn is outside the repository; it is
modelled by an abstract per-fit scoring function (seed → fitted dataset →
feature vector → score) combined with scikit-learn's documented decision
rule: a row is labeled `-1` (anomalous) exactly when its score lies
strictly below the `100·contamination`-th linearly interpolated percentile
of all scores, `1` (normal) otherwise.  Theorems about `detect_anomalies`
quantify over the scoring function wherever the property must hold for
any behaviour of the library.
-/

namespace TaxData

/-- One row of the transaction table (`작성월`, `거래유형`, `발행형태`,
`공급가액`, `세액`); `none` models a missing (`NaN`) cell. -/
structure Row where
  month : Option String
  ttype : Option String
  form : Option String
  supply : Option ℚ
  tax : Option ℚ
deriving DecidableEq

/-- Helper building a fully populated row. -/
def mkRow (m t f : String) (s x : ℚ) : Row :=
  ⟨some m, some t, some f, some s, some x⟩

/-- Insert into an ascending-sorted list of rationals. -/
def insertSortedQ (x : ℚ) : List ℚ → List ℚ
  | [] => [x]
  | y :: ys => if x ≤ y then x :: y :: ys else y :: insertSortedQ x ys

/-- Ascending insertion sort, used by the quantile computation. -/
def sortQ : List ℚ → List ℚ
  | [] => []
  | x :: xs => insertSortedQ x (sortQ xs)

/-- Linearly interpolated quantile of a list of rationals, the default
`interpolation='linear'` of `pandas.Series.quantile` and of
`numpy.percentile` (with `q` scaled to `[0,1]`): on the ascending sorted
values `s` of length `n`, the quantile at `q` is `s[i] + g·(s[i+1] - s[i])`
where `i = ⌊q·(n-1)⌋` and `g` is the fractional part.  An empty list gives
`0` (pandas would give `NaN`; the analysed code only compares against it,
and every comparison with `NaN` is false, matching flag `false` below). -/
def quantileLin (xs : List ℚ) (q : ℚ) : ℚ :=
  let s := sortQ xs
  let n := s.length
  if n = 0 then 0
  else
    let pos := q * ((n : ℚ) - 1)
    let i := pos.floor.toNat
    let g := pos - (pos.floor : ℚ)
    let a := s.getD i 0
    let b := s.getD (i + 1) a
    a + g * (b - a)

/-- Lower IQR fence `Q1 - 1.5·IQR` from `detect_outliers_iqr`
(utils.py lines 739-745). -/
def lowerFence (xs : List ℚ) : ℚ :=
  quantileLin xs (1/4) - 3/2 * (quantileLin xs (3/4) - quantileLin xs (1/4))

/-- Upper IQR fence `Q3 + 1.5·IQR` from `detect_outliers_iqr`. -/
def upperFence (xs : List ℚ) : ℚ :=
  quantileLin xs (3/4) + 3/2 * (quantileLin xs (3/4) - quantileLin xs (1/4))

/-- The IQR outlier test of `detect_outliers_iqr`:
`(series < lower_bound) | (series > upper_bound)`. -/
def iqrViolation (xs : List ℚ) (x : ℚ) : Bool :=
  decide (x < lowerFence xs) || decide (upperFence xs < x)

/-- The IQR test lifted to a possibly missing cell: a pandas comparison
with `NaN` is false on both sides, so a missing value is never flagged. -/
def flagOpt (xs : List ℚ) : Option ℚ → Bool
  | none => false
  | some x => iqrViolation xs x

/-- Access interface shared by the plain table and the labeled table
(`create_clean_data_analysis` is generic pandas code: it reads the two
numeric columns and counts missing cells over all columns of whatever
frame it is handed). -/
class QRow (α : Type) where
  supplyOf : α → Option ℚ
  taxOf : α → Option ℚ
  missingCount : α → ℕ

/-- Number of missing cells among the five columns of a row. -/
def Row.missingCells (r : Row) : ℕ :=
  (if r.month.isNone then 1 else 0) + (if r.ttype.isNone then 1 else 0) +
    (if r.form.isNone then 1 else 0) + (if r.supply.isNone then 1 else 0) +
    (if r.tax.isNone then 1 else 0)

instance : QRow Row :=
  ⟨Row.supply, Row.tax, Row.missingCells⟩

/-- A labeled row: the row of the model output table together with its
`이상치` label (`-1` anomalous / `1` normal).  The label column is
integer-valued, hence never missing. -/
instance : QRow (Row × Int) :=
  ⟨fun p => p.1.supply, fun p => p.1.tax, fun p => p.1.missingCells⟩

/-- The non-missing values of the `공급가액` column
(pandas quantile and sum skip `NaN`). -/
def presentSupplies {α : Type} [QRow α] (df : List α) : List ℚ :=
  df.filterMap QRow.supplyOf

/-- The non-missing values of the `세액` column. -/
def presentTaxes {α : Type} [QRow α] (df : List α) : List ℚ :=
  df.filterMap QRow.taxOf

/-- `dropna` keeps a row exactly when it has no missing cell. -/
def rowComplete {α : Type} [QRow α] (r : α) : Bool :=
  QRow.missingCount r == 0

/-- The `supply_outliers` mask of `create_clean_data_analysis`: the IQR
test on the `공급가액` column, with fences computed on the whole input
frame (the masks are computed on `df` before any row is dropped). -/
def supplyFlag {α : Type} [QRow α] (df : List α) (r : α) : Bool :=
  flagOpt (presentSupplies df) (QRow.supplyOf r)

/-- The `tax_outliers` mask on the `세액` column. -/
def taxFlag {α : Type} [QRow α] (df : List α) (r : α) : Bool :=
  flagOpt (presentTaxes df) (QRow.taxOf r)

/-- The clean subset of `create_clean_data_analysis` (utils.py lines
752-755): `dropna`, then drop the rows flagged by the `공급가액` mask,
then the rows flagged by the `세액` mask — three successive filters whose
masks were all computed on the original frame. -/
def cleanSubset {α : Type} [QRow α] (df : List α) : List α :=
  ((df.filter (fun r => rowComplete r)).filter
      (fun r => !supplyFlag df r)).filter
    (fun r => !taxFlag df r)

/-- Rows flagged by either IQR mask: `(supply_outliers | tax_outliers).sum()`. -/
def outlierRowCount {α : Type} [QRow α] (df : List α) : ℕ :=
  (df.filter (fun r => supplyFlag df r || taxFlag df r)).length

/-- Total number of missing cells: `df.isnull().sum()` summed over columns. -/
def missingTotal {α : Type} [QRow α] (df : List α) : ℕ :=
  (df.map (fun r => QRow.missingCount r)).sum

/-- The `clean_stats` summary dictionary of `create_clean_data_analysis`
(utils.py lines 758-765). -/
def cleanStats {α : Type} [QRow α] (df : List α) : List (String × ℚ) :=
  [("원본_데이터_수", (df.length : ℚ)),
   ("깨끗한_데이터_수", ((cleanSubset df).length : ℚ)),
   ("제거된_데이터_수", ((df.length - (cleanSubset df).length : ℕ) : ℚ)),
   ("데이터_품질_비율",
      if 0 < df.length then ((cleanSubset df).length : ℚ) / (df.length : ℚ) * 100 else 0),
   ("결측치_비율", (missingTotal df : ℚ) / (df.length : ℚ) * 100),
   ("이상치_비율",
      if 0 < df.length then (outlierRowCount df : ℚ) / (df.length : ℚ) * 100 else 0)]

/-- `create_clean_data_analysis`: `None` on an empty frame, otherwise the
summary statistics and the clean subset. -/
def cleanAnalysis (df : List Row) : Option (List (String × ℚ) × List Row) :=
  if df.isEmpty then none else some (cleanStats df, cleanSubset df)

/-- A value of the KPI dictionary.  `sqrtOf v` stands for the (possibly
irrational) square root of the exactly computed sample variance `v`: the
one field of `calculate_kpis` that is not rational arithmetic
(`pandas.Series.std`, normalised by `n - 1`). -/
inductive KpiVal
  | num (q : ℚ)
  | sqrtOf (q : ℚ)
deriving DecidableEq

/-- Rows of a given `거래유형`. -/
def typeFilter (df : List Row) (t : String) : List Row :=
  df.filter (fun r => r.ttype == some t)

/-- `pandas` column sum: missing cells are skipped, an empty column sums
to `0`. -/
def supplySum (df : List Row) : ℚ :=
  (df.filterMap Row.supply).sum

/-- `pandas` column max over the present values (`0` stands for the `NaN`
an all-missing column would give; the analysed claims concern validated
tables where the column is non-empty). -/
def listMaxD (xs : List ℚ) : ℚ :=
  (xs.max?).getD 0

/-- `pandas` column min over the present values. -/
def listMinD (xs : List ℚ) : ℚ :=
  (xs.min?).getD 0

/-- Arithmetic mean (`0` for the empty list, where pandas gives `NaN`). -/
def meanQ (xs : List ℚ) : ℚ :=
  xs.sum / (xs.length : ℚ)

/-- Sample variance with the pandas default `ddof = 1`; `0` stands for the
`NaN` pandas produces on fewer than two values. -/
def sampleVar (xs : List ℚ) : ℚ :=
  if xs.length ≤ 1 then 0
  else ((xs.map (fun x => (x - meanQ xs) ^ 2)).sum) / ((xs.length : ℚ) - 1)

/-- `calculate_kpis` (utils.py lines 157-179): the empty dictionary on an
empty frame, otherwise exactly the twelve keys built there.  The nested
key-value list mirrors the Python dict literal line by line. -/
def calculateKpis (df : List Row) : List (String × KpiVal) :=
  if df.isEmpty then []
  else
    [("총_매출", .num (supplySum (typeFilter df "매출"))),
     ("총_매입", .num (supplySum (typeFilter df "매입"))),
     ("총_비용", .num (supplySum (typeFilter df "비용"))),
     ("총_수익", .num (supplySum (typeFilter df "수익"))),
     ("매출_건수", .num ((typeFilter df "매출").length : ℚ)),
     ("매입_건수", .num ((typeFilter df "매입").length : ℚ)),
     ("비용_건수", .num ((typeFilter df "비용").length : ℚ)),
     ("수익_건수", .num ((typeFilter df "수익").length : ℚ)),
     ("전자_발행_비율",
        .num (((df.filter (fun r => r.form == some "전자")).length : ℚ) / (df.length : ℚ) * 100)),
     ("최대_거래", .num (listMaxD (df.filterMap Row.supply))),
     ("최소_거래", .num (listMinD (df.filterMap Row.supply))),
     ("거래_표준편차", .sqrtOf (sampleVar (df.filterMap Row.supply)))]

/-- The two numeric features `(공급가액, 세액)` of a row, as selected by
`detect_anomalies` (utils.py line 648). -/
abbrev Feat := Option ℚ × Option ℚ

/-- Feature extraction `df[['공급가액', '세액']]`. -/
def featOf (r : Row) : Feat :=
  (r.supply, r.tax)

/-- A per-fit scoring model of the scikit-learn `IsolationForest`:
given the seed (`random_state`), the dataset the forest was fitted on and
one feature vector, produce the anomaly score (`score_samples`; larger is
more normal).  The repository never constrains this function, so theorems
quantify over it. -/
abbrev ScoreFn := ℕ → List Feat → Feat → ℚ

/-- The effective seed of a scikit-learn estimator: `random_state=n` fixes
the seed to `n`; `random_state=None` draws from the ambient process-wide
random state. -/
def effectiveSeed (ambient : ℕ) (randomState : Option ℕ) : ℕ :=
  randomState.getD ambient

/-- The documented `fit_predict` decision rule of `IsolationForest`: with
`offset_` the `100·contamination`-th (linearly interpolated) percentile of
the scores of the fitted data, a row is labeled `-1` (anomalous) exactly
when its score is strictly below `offset_`, else `1` (normal). -/
def isoForestLabels (sc : Feat → ℚ) (feats : List Feat) (contamination : ℚ) : List Int :=
  let scores := feats.map sc
  let offset := quantileLin scores contamination
  scores.map (fun s => if s < offset then -1 else 1)

/-- The output of `detect_anomalies`: the rows of the returned frame, and
the `이상치` label column when it was added (`anomalyCol = none` models a
frame without that column). -/
structure ATable where
  rows : List Row
  anomalyCol : Option (List Int)
deriving DecidableEq

/-- `detect_anomalies` (utils.py lines 640-658): an empty frame is
returned as is (no label column); otherwise the features are extracted,
an `IsolationForest(contamination=contamination, random_state=42)` is fit
on them, and the input rows are returned with the predicted labels as the
extra `이상치` column.  `ambient` is the process-wide numpy random state;
the hard-coded `random_state=42` ignores it.  No validation of
`contamination` appears anywhere in the function. -/
def detectAnomalies (score : ScoreFn) (ambient : ℕ) (df : List Row)
    (contamination : ℚ) : ATable :=
  if df.isEmpty then ⟨df, none⟩
  else
    let feats := df.map featOf
    let seed := effectiveSeed ambient (some 42)
    ⟨df, some (isoForestLabels (score seed feats) feats contamination)⟩

/-- Number of labels the model attached (`0` when no label column). -/
def labelCount (t : ATable) : ℕ :=
  ((t.anomalyCol).getD []).length

/-- A concrete instance of the abstract scoring model, used to evaluate
the embedding on closed inputs: the score of a feature vector is the sum
of its present components. -/
def specScore : ScoreFn :=
  fun _ _ p => p.1.getD 0 + p.2.getD 0

/-- An input frame as a validator sees it: the list of column names, the
rows, and the (pandas) dtype of the two numeric columns — `true` when the
column already holds numbers.  Row fields are meaningful only for columns
present in `cols`; both validators return before reading any value of an
absent column. -/
structure Frame where
  cols : List String
  rows : List Row
  supplyNumeric : Bool
  taxNumeric : Bool

/-- The messages the two validators emit through `st.error` / `st.warning`,
with the data each message interpolates.  Categorical values are
`Option String` because a missing cell (`NaN`) also fails the `isin`
test and is then listed among the offending values. -/
inductive VMsg
  | errMissingColumns (cols : List String)
  | warnInvalidTypes (vals : List (Option String))
  | warnInvalidForms (vals : List (Option String))
  | errNonNumericSupply
  | errNonNumericTax
  | errInvalidTypes (vals : List (Option String))
  | errInvalidForms (vals : List (Option String))
deriving DecidableEq

/-- A validator verdict: the returned boolean plus the emitted messages. -/
structure Verdict where
  ok : Bool
  msgs : List VMsg
deriving DecidableEq

/-- The required columns of both validators. -/
def requiredColumns : List String :=
  ["작성월", "거래유형", "발행형태", "공급가액", "세액"]

/-- Permitted `거래유형` values of the lenient validator
(utils.py line 136). -/
def validTypesExt : List String :=
  ["매출", "매입", "비용", "수익"]

/-- Permitted `거래유형` values of the strict validator
(data_processor.py line 206). -/
def validTypesStrict : List String :=
  ["매출", "매입"]

/-- Permitted `발행형태` values of both validators. -/
def validFormsList : List String :=
  ["전자", "종이"]

/-- `pandas.Series.unique`: deduplicate keeping the first occurrence of
each value, in order of appearance. -/
def firstDedup {α : Type} [DecidableEq α] : List α → List α
  | [] => []
  | x :: xs => x :: (firstDedup xs).filter (fun y => y ≠ x)

/-- `df[~df[col].isin(valid)][col].unique()`: the distinct column values
outside the permitted set, in order of first appearance; a missing cell is
outside every permitted set. -/
def invalidCatVals (vals : List (Option String)) (valid : List String) :
    List (Option String) :=
  firstDedup (vals.filter (fun v => !(decide (v ∈ valid.map some))))

/-- The required columns absent from a frame, in required-column order
(`[col for col in required_columns if col not in df.columns]`). -/
def missingColsOf (fr : Frame) : List String :=
  requiredColumns.filter (fun c => !(decide (c ∈ fr.cols)))

/-- The invalid `거래유형` values of a frame, against the extended
(lenient) permitted set. -/
def invalidTypesExt (fr : Frame) : List (Option String) :=
  invalidCatVals (fr.rows.map Row.ttype) validTypesExt

/-- The invalid `거래유형` values of a frame, against the strict
permitted set. -/
def invalidTypesStrict (fr : Frame) : List (Option String) :=
  invalidCatVals (fr.rows.map Row.ttype) validTypesStrict

/-- The invalid `발행형태` values of a frame. -/
def invalidFormsOf (fr : Frame) : List (Option String) :=
  invalidCatVals (fr.rows.map Row.form) validFormsList

/-- The lenient validator `utils.validate_tax_invoice_data` (utils.py
lines 123-155): fails only on missing required columns; out-of-set
categorical values produce warnings but the verdict is still `True`; the
final numeric coercion uses `errors='coerce'` and cannot fail. -/
def validateLenient (fr : Frame) : Verdict :=
  let missing := missingColsOf fr
  if missing ≠ [] then ⟨false, [.errMissingColumns missing]⟩
  else
    let its := invalidTypesExt fr
    let ifs := invalidFormsOf fr
    ⟨true,
      (if its ≠ [] then [.warnInvalidTypes its] else []) ++
        (if ifs ≠ [] then [.warnInvalidForms ifs] else [])⟩

/-- The strict validator `data_processor.validate_tax_invoice_data`
(data_processor.py lines 184-220): missing columns, a non-numeric dtype of
either amount column, or any out-of-set categorical value each abort with
`False` and the corresponding error message, checked in that order. -/
def validateStrict (fr : Frame) : Verdict :=
  let missing := missingColsOf fr
  if missing ≠ [] then ⟨false, [.errMissingColumns missing]⟩
  else if !fr.supplyNumeric then ⟨false, [.errNonNumericSupply]⟩
  else if !fr.taxNumeric then ⟨false, [.errNonNumericTax]⟩
  else
    let its := invalidTypesStrict fr
    if its ≠ [] then ⟨false, [.errInvalidTypes its]⟩
    else
      let ifs := invalidFormsOf fr
      if ifs ≠ [] then ⟨false, [.errInvalidForms ifs]⟩
      else ⟨true, []⟩

/-- Clamp to the interval `[0, 100]`. -/
def clamp100 (x : ℚ) : ℚ :=
  max 0 (min 100 x)

/-- The bounded squashing map `x ↦ x / (1 + x)`, strictly increasing and
valued in `[0, 1)` on nonnegative inputs. -/
def squash (x : ℚ) : ℚ :=
  x / (1 + x)

/-- Modelled from the spec: no Risk Scorer exists anywhere in the
repository's source; §4.4 prescribes a weighted combination of (a) the
anomaly rate, (b) the anomalous-mean/normal-mean ratio of `공급가액` and
(c) the dispersion of the anomalous subset relative to the normal subset,
clamped to `[0, 100]`, strictly increasing in (a) and in (b).  The model
weights the three summands 40/30/30 and squashes the two unbounded ratios. -/
def scoreFromStats (rate mRatio dRatio : ℚ) : ℚ :=
  clamp100 (40 * rate + 30 * squash mRatio + 30 * squash dRatio)

/-- The anomalous subset of a labeled table (label `-1`). -/
def anomSubset (t : List (Row × Int)) : List Row :=
  (t.filter (fun p => p.2 == -1)).map Prod.fst

/-- The normal subset of a labeled table. -/
def normSubset (t : List (Row × Int)) : List Row :=
  (t.filter (fun p => !(p.2 == -1))).map Prod.fst

/-- Anomaly rate: anomalous count over total count. -/
def anomalyRate (t : List (Row × Int)) : ℚ :=
  ((anomSubset t).length : ℚ) / (t.length : ℚ)

/-- Ratio of the anomalous-subset mean to the normal-subset mean of
`공급가액` (division by zero yields `0` in `ℚ`). -/
def meanRatioOf (t : List (Row × Int)) : ℚ :=
  meanQ (presentSupplies (anomSubset t)) / meanQ (presentSupplies (normSubset t))

/-- Dispersion of the anomalous subset relative to the normal subset,
measured by the ratio of the sample variances of `공급가액` (a monotone
transform of the standard-deviation ratio, kept rational). -/
def dispRatioOf (t : List (Row × Int)) : ℚ :=
  sampleVar (presentSupplies (anomSubset t)) / sampleVar (presentSupplies (normSubset t))

/-- Modelled from the spec: the composite risk score of §4.4, with the
explicit zero-anomaly branch the spec requires (`score = 0`, not a
division fallthrough). -/
def riskScore (t : List (Row × Int)) : ℚ :=
  if (anomSubset t).length = 0 then 0
  else scoreFromStats (anomalyRate t) (meanRatioOf t) (dispRatioOf t)

/-- A one-row table. -/
def tOne : List Row :=
  [mkRow "2024-01" "매출" "전자" 1000 100]

/-- A two-row table with both amounts inside the IQR fences. -/
def tTwo : List Row :=
  [mkRow "2024-01" "매출" "전자" 1000 100, mkRow "2024-02" "매입" "종이" 2000 200]

/-- Two rows with identical feature vectors `(5, 1)`: a zero-variance
table for the degenerate-input theorems. -/
def tPair : List Row :=
  [mkRow "2024-01" "매출" "전자" 5 1, mkRow "2024-02" "매출" "전자" 5 1]

/-- Three rows, constant `공급가액` and varying `세액`: fewer than ten
rows and zero variance in one feature, yet the features are separable. -/
def tVar3 : List Row :=
  [mkRow "2024-01" "매출" "전자" 1 0,
   mkRow "2024-01" "매출" "전자" 1 100,
   mkRow "2024-01" "매출" "전자" 1 100]

/-- A skewed five-row table (`공급가액` values `0,0,0,1,10`, constant
`세액`): the first IQR pass removes the value `10`, which tightens the
fences enough that a second pass also removes the value `1`. -/
def tSkew : List Row :=
  [mkRow "2024-01" "매출" "전자" 0 0,
   mkRow "2024-01" "매출" "전자" 0 0,
   mkRow "2024-01" "매출" "전자" 0 0,
   mkRow "2024-01" "매출" "전자" 1 0,
   mkRow "2024-01" "매출" "전자" 10 0]

/-- A frame missing the `세액` column. -/
def frMissingTax : Frame :=
  ⟨["작성월", "거래유형", "발행형태", "공급가액"], [], true, true⟩

/-- A frame with all required columns and one out-of-set `거래유형`. -/
def frBadType : Frame :=
  ⟨requiredColumns, [mkRow "2024-01" "증여" "전자" 1 0], true, true⟩

/-- A frame with valid strict `거래유형` values and one out-of-set
`발행형태`. -/
def frBadForm : Frame :=
  ⟨requiredColumns, [mkRow "2024-01" "매출" "팩스" 1 0], true, true⟩

/-- A concrete labeled table: one anomalous and one normal row. -/
def tLab : List (Row × Int) :=
  [(mkRow "2024-01" "매출" "전자" 1000 100, -1),
   (mkRow "2024-02" "매출" "전자" 10 1, 1)]

/-! ## Helper lemmas -/

theorem floor_le_of_le {q : ℚ} {n : ℤ} (h : q ≤ (n : ℚ)) : q.floor ≤ n := by
  by_contra hc
  push_neg at hc
  have h1 : n + 1 ≤ q.floor := by omega
  have h2 : ((n + 1 : ℤ) : ℚ) ≤ q := Rat.le_floor.mp h1
  push_cast at h2
  linarith

theorem floor_nonneg_of {q : ℚ} (h : 0 ≤ q) : 0 ≤ q.floor :=
  Rat.le_floor.mpr (by exact_mod_cast h)

theorem getD_replicate {α : Type} (v d : α) :
    ∀ (n i : ℕ), i < n → (List.replicate n v).getD i d = v := by
  intro n
  induction n with
  | zero => intro i h; omega
  | succ m ih =>
    intro i h
    cases i with
    | zero => rfl
    | succ j =>
      simpa [List.replicate_succ] using ih j (by omega)

theorem getD_of_le {α : Type} (d : α) :
    ∀ (l : List α) (i : ℕ), l.length ≤ i → l.getD i d = d := by
  intro l
  induction l with
  | nil => intro i _; cases i <;> rfl
  | cons x xs ih =>
    intro i h
    cases i with
    | zero => simp at h
    | succ j => simpa using ih j (by simpa using h)

theorem insertSortedQ_replicate (v : ℚ) :
    ∀ n, insertSortedQ v (List.replicate n v) = List.replicate (n + 1) v := by
  intro n
  cases n with
  | zero => rfl
  | succ m => simp [List.replicate_succ, insertSortedQ]

theorem sortQ_replicate (v : ℚ) :
    ∀ n, sortQ (List.replicate n v) = List.replicate n v := by
  intro n
  induction n with
  | zero => rfl
  | succ m ih =>
    rw [List.replicate_succ, sortQ, ih, insertSortedQ_replicate,
      List.replicate_succ]

theorem quantileLin_replicate (n : ℕ) (v q : ℚ) (h1 : 1 ≤ n) (h0 : 0 ≤ q)
    (hq : q ≤ 1) : quantileLin (List.replicate n v) q = v := by
  simp only [quantileLin, sortQ_replicate, List.length_replicate]
  rw [if_neg (by omega)]
  have hn1 : (0 : ℚ) ≤ (n : ℚ) - 1 := by
    have : (1 : ℚ) ≤ (n : ℚ) := by exact_mod_cast h1
    linarith
  have hP0 : 0 ≤ q * ((n : ℚ) - 1) := mul_nonneg h0 hn1
  have hPle : q * ((n : ℚ) - 1) ≤ (n : ℚ) - 1 := by nlinarith
  have hfle : (q * ((n : ℚ) - 1)).floor ≤ (n : ℤ) - 1 :=
    floor_le_of_le (by push_cast; linarith)
  have hf0 : 0 ≤ (q * ((n : ℚ) - 1)).floor := floor_nonneg_of hP0
  have hi : (q * ((n : ℚ) - 1)).floor.toNat < n := by omega
  rw [getD_replicate v 0 n _ hi]
  by_cases h2 : (q * ((n : ℚ) - 1)).floor.toNat + 1 < n
  · rw [getD_replicate v v n _ h2]
    ring
  · rw [getD_of_le v _ _ (by simpa using by omega)]
    ring

theorem mem_firstDedup {α : Type} [DecidableEq α] (a : α) :
    ∀ l : List α, a ∈ firstDedup l ↔ a ∈ l := by
  intro l
  induction l with
  | nil => simp [firstDedup]
  | cons x xs ih =>
    by_cases h : a = x <;> simp [firstDedup, List.mem_filter, ih, h]

theorem map_fst_filter_fst {α β : Type} (q : α → Bool) (l : List (α × β)) :
    (l.filter (fun p => q p.1)).map Prod.fst = (l.map Prod.fst).filter q := by
  induction l with
  | nil => rfl
  | cons a t ih => by_cases h : q a.1 <;> simp [List.filter, h, ih]

theorem clamp100_nonneg (x : ℚ) : 0 ≤ clamp100 x :=
  le_max_left 0 _

theorem clamp100_le (x : ℚ) : clamp100 x ≤ 100 :=
  max_le (by norm_num) (min_le_left 100 x)

theorem clamp100_of {x : ℚ} (h0 : 0 ≤ x) (h1 : x ≤ 100) : clamp100 x = x := by
  unfold clamp100
  rw [min_eq_right h1, max_eq_right h0]

theorem squash_nonneg {x : ℚ} (h : 0 ≤ x) : 0 ≤ squash x :=
  div_nonneg h (by linarith)

theorem squash_lt_one {x : ℚ} (h : 0 ≤ x) : squash x < 1 := by
  unfold squash
  rw [div_lt_one (by linarith)]
  linarith

theorem squash_strict {a b : ℚ} (h : 0 ≤ a) (hab : a < b) :
    squash a < squash b := by
  unfold squash
  rw [div_lt_div_iff₀ (by linarith) (by linarith)]
  nlinarith

/-! ## Claim theorems -/

/-- C1: determinism of the Outlier Model.  `detect_anomalies` hard-codes
`random_state=42`, so its output is a function of the input table and the
contamination alone: for any scoring behaviour of the library and any two
states `a`, `b` of the ambient process-wide random source, the two calls
return identical rows and identical per-row labels. -/
theorem outlier_model_determinism (score : ScoreFn) (a b : ℕ) (df : List Row)
    (c : ℚ) : detectAnomalies score a df c = detectAnomalies score b df c := rfl

/-- C3 counterexample: a three-row table (fewer than ten rows, zero
variance in `공급가액`) on which `detect_anomalies` with the in-range
contamination `0.3` labels a row anomalous under a concrete scoring model,
refuting "all degenerate inputs yield all-normal labels". -/
theorem degenerate_input_cx :
    tVar3.length < 10 ∧ tVar3.map Row.supply = [some 1, some 1, some 1] ∧
    (detectAnomalies specScore 0 tVar3 (3/10)).anomalyCol = some [-1, 1, 1] := by
  with_unfolding_all decide

/-- C3 amended: the empty table is returned unlabeled (vacuously
all-normal and no exception), and a table whose rows all carry the same
feature vector receives all-normal labels for every scoring model and
every contamination in `[0, 1]`; small-but-varying tables carry no such
guarantee. -/
theorem degenerate_input_amended (score : ScoreFn) (a : ℕ) (c : ℚ)
    (df : List Row) (p : Feat) (hdf : df ≠ []) (hc0 : 0 ≤ c) (hc1 : c ≤ 1)
    (hp : ∀ r ∈ df, featOf r = p) :
    detectAnomalies score a [] c = ⟨[], none⟩ ∧
    (detectAnomalies score a df c).anomalyCol =
      some (List.replicate df.length 1) := by
  constructor
  · rfl
  · have hne : df.isEmpty = false := by
      simp [List.isEmpty_iff, hdf]
    simp only [detectAnomalies, hne, Bool.false_eq_true, if_false]
    have hfeats : df.map featOf = List.replicate df.length p := by
      refine List.eq_replicate_iff.mpr ⟨by simp, ?_⟩
      intro b hb
      obtain ⟨r, hr, rfl⟩ := List.mem_map.mp hb
      exact hp r hr
    rw [hfeats]
    have hn : 1 ≤ df.length := List.length_pos.mpr hdf
    simp only [isoForestLabels, List.map_replicate]
    rw [quantileLin_replicate _ _ _ hn hc0 hc1]
    simp [lt_irrefl]

/-- Witness for C3's amended theorem at the empty table and at the
two-row constant-feature table `tPair` with contamination `0.1`. -/
theorem degenerate_input_amended_witness :
    detectAnomalies specScore 0 [] (1/10) = ⟨[], none⟩ ∧
    (detectAnomalies specScore 0 tPair (1/10)).anomalyCol =
      some (List.replicate tPair.length 1) :=
  degenerate_input_amended specScore 0 (1/10) tPair (some 5, some 1)
    (by with_unfolding_all decide) (by with_unfolding_all decide)
    (by with_unfolding_all decide) (by with_unfolding_all decide)

/-- C4 counterexample: on the empty table `detect_anomalies` returns the
input itself with no `이상치` column, so the output is not "the input
extended with exactly one additional label column" for every input. -/
theorem frame_property_cx :
    ((detectAnomalies specScore 0 ([] : List Row) (1/10)).anomalyCol).isSome
      = false := rfl

/-- C4 amended: for every non-empty input the output frame consists of
exactly the input rows, unchanged and in order, plus one label column with
one label per row (the embedding is pure, so the input itself is never
mutated); the empty table is returned as is, without the label column. -/
theorem frame_property_amended (score : ScoreFn) (a : ℕ) (df : List Row)
    (c : ℚ) (hdf : df ≠ []) :
    (detectAnomalies score a df c).rows = df ∧
    ((detectAnomalies score a df c).anomalyCol).isSome = true ∧
    labelCount (detectAnomalies score a df c) = df.length ∧
    detectAnomalies score a ([] : List Row) c = ⟨[], none⟩ := by
  have hne : df.isEmpty = false := by
    simp [List.isEmpty_iff, hdf]
  refine ⟨?_, ?_, ?_, rfl⟩ <;>
    simp [detectAnomalies, hne, labelCount, isoForestLabels]

/-- Witness for C4's amended theorem at the one-row table `tOne`. -/
theorem frame_property_amended_witness :
    (detectAnomalies specScore 0 tOne (1/10)).rows = tOne ∧
    ((detectAnomalies specScore 0 tOne (1/10)).anomalyCol).isSome = true ∧
    labelCount (detectAnomalies specScore 0 tOne (1/10)) = tOne.length ∧
    detectAnomalies specScore 0 ([] : List Row) (1/10) = ⟨[], none⟩ :=
  frame_property_amended specScore 0 tOne (1/10) (by decide)

/-- C5 counterexample: at `contamination = 2`, far outside `(0, 1)`,
`detect_anomalies` raises no `ParameterError` before fitting — it runs the
model and returns a labeled table exactly as for a valid value. -/
theorem contamination_unvalidated_cx :
    ((detectAnomalies specScore 0 tOne 2).anomalyCol).isSome = true := rfl

/-- C5 amended: `detect_anomalies` contains no contamination validation
whatsoever: for every contamination value, valid or not, the non-empty
input is fitted and labeled (out-of-range values can only fail inside
the scikit-learn library at fit time, not before). -/
theorem contamination_unvalidated (score : ScoreFn) (a : ℕ) (df : List Row)
    (c : ℚ) (hdf : df ≠ []) :
    ((detectAnomalies score a df c).anomalyCol).isSome = true ∧
    (detectAnomalies score a df c).rows = df := by
  have hne : df.isEmpty = false := by
    simp [List.isEmpty_iff, hdf]
  exact ⟨by simp [detectAnomalies, hne], by simp [detectAnomalies, hne]⟩

/-- Witness for C5's amended theorem, applied at the out-of-range
contamination `2`. -/
theorem contamination_unvalidated_witness :
    ((detectAnomalies specScore 0 tOne 2).anomalyCol).isSome = true ∧
    (detectAnomalies specScore 0 tOne 2).rows = tOne :=
  contamination_unvalidated specScore 0 tOne 2 (by decide)

theorem cleanSubset_length_le {α : Type} [QRow α] (df : List α) :
    (cleanSubset df).length ≤ df.length :=
  le_trans (List.length_filter_le _ _)
    (le_trans (List.length_filter_le _ _) (List.length_filter_le _ _))

/-- C2: reference characterisation of the Rule-Based Quality Filter.  The
three successive pandas filters of `create_clean_data_analysis` equal one
filter removing a row exactly when it is missing a field OR flagged in
either amount column; a value is flagged exactly when it lies strictly
outside `[Q1 - 1.5·IQR, Q3 + 1.5·IQR]` (fences computed per field over the
whole table); and the summary counts are the original count, the clean
count, their difference, and `clean/original × 100`. -/
theorem clean_filter_reference (df : List Row) (xs : List ℚ) (x : ℚ)
    (hdf : df ≠ []) :
    cleanSubset df =
      df.filter (fun r => !(!rowComplete r || supplyFlag df r || taxFlag df r)) ∧
    (iqrViolation xs x = true ↔ ¬(lowerFence xs ≤ x ∧ x ≤ upperFence xs)) ∧
    cleanAnalysis df = some (cleanStats df, cleanSubset df) ∧
    (cleanStats df).lookup "원본_데이터_수" = some ((df.length : ℚ)) ∧
    (cleanStats df).lookup "깨끗한_데이터_수" =
      some (((cleanSubset df).length : ℚ)) ∧
    (cleanStats df).lookup "제거된_데이터_수" =
      some ((df.length : ℚ) - ((cleanSubset df).length : ℚ)) ∧
    (cleanStats df).lookup "데이터_품질_비율" =
      some (100 * ((cleanSubset df).length : ℚ) / (df.length : ℚ)) := by
  have hne : df.isEmpty = false := by
    simp [List.isEmpty_iff, hdf]
  have hpos : 0 < df.length := List.length_pos.mpr hdf
  have hle := cleanSubset_length_le df
  refine ⟨?_, ?_, ?_, rfl, rfl, ?_, ?_⟩
  · unfold cleanSubset
    rw [List.filter_filter, List.filter_filter]
    apply List.filter_congr
    intro r _
    cases hc : rowComplete r <;> cases hs : supplyFlag df r <;>
      cases ht : taxFlag df r <;> rfl
  · simp only [iqrViolation, Bool.or_eq_true, decide_eq_true_eq]
    rw [not_and_or, not_le, not_le]
  · simp [cleanAnalysis, hne]
  · calc (cleanStats df).lookup "제거된_데이터_수"
        = some ((df.length - (cleanSubset df).length : ℕ) : ℚ) := rfl
      _ = some ((df.length : ℚ) - ((cleanSubset df).length : ℚ)) := by
          rw [Nat.cast_sub hle]
  · calc (cleanStats df).lookup "데이터_품질_비율"
        = some (if 0 < df.length then
            ((cleanSubset df).length : ℚ) / (df.length : ℚ) * 100 else 0) := rfl
      _ = some (100 * ((cleanSubset df).length : ℚ) / (df.length : ℚ)) := by
          rw [if_pos hpos]
          congr 1
          ring

/-- Witness for C2 at the two-row table `tTwo` (no row removed there) and
the one-element fence list `[0]` with the probe value `5`. -/
theorem clean_filter_reference_witness :
    cleanSubset tTwo =
      tTwo.filter
        (fun r => !(!rowComplete r || supplyFlag tTwo r || taxFlag tTwo r)) ∧
    (iqrViolation [0] 5 = true ↔
      ¬(lowerFence [0] ≤ 5 ∧ 5 ≤ upperFence [0])) ∧
    cleanAnalysis tTwo = some (cleanStats tTwo, cleanSubset tTwo) ∧
    (cleanStats tTwo).lookup "원본_데이터_수" = some ((tTwo.length : ℚ)) ∧
    (cleanStats tTwo).lookup "깨끗한_데이터_수" =
      some (((cleanSubset tTwo).length : ℚ)) ∧
    (cleanStats tTwo).lookup "제거된_데이터_수" =
      some ((tTwo.length : ℚ) - ((cleanSubset tTwo).length : ℚ)) ∧
    (cleanStats tTwo).lookup "데이터_품질_비율" =
      some (100 * ((cleanSubset tTwo).length : ℚ) / (tTwo.length : ℚ)) :=
  clean_filter_reference tTwo [0] 5 (by decide)

/-- C8 counterexample: on the skewed table `tSkew` the first filter pass
keeps 4 of 5 rows, and re-applying the filter to that clean subset
removes one further row (the recomputed IQR fences tighten), so the clean
subset is not a fixed point. -/
theorem quality_filter_not_idempotent_cx :
    (cleanSubset tSkew).length = 4 ∧
    (cleanSubset (cleanSubset tSkew)).length = 3 ∧
    cleanSubset (cleanSubset tSkew) ≠ cleanSubset tSkew := by
  have h4 : (cleanSubset tSkew).length = 4 := by with_unfolding_all decide
  have h3 : (cleanSubset (cleanSubset tSkew)).length = 3 := by
    with_unfolding_all decide
  refine ⟨h4, h3, fun h => ?_⟩
  have hlen := congrArg List.length h
  rw [h3, h4] at hlen
  exact absurd hlen (by omega)

/-- C8 amended: the Rule-Based Quality Filter is not idempotent — there
are tables on which re-applying it to its own clean subset strictly
removes additional rows. -/
theorem quality_filter_not_idempotent :
    ∃ df : List Row,
      (cleanSubset (cleanSubset df)).length < (cleanSubset df).length :=
  ⟨tSkew, by with_unfolding_all decide⟩

/-- C6: the KPI dictionary of `calculate_kpis` on a non-empty table holds
exactly twelve keys — per-type sums of `공급가액`, per-type row counts,
the electronic-issuance ratio `count(전자)/total × 100`, and the max, min
and standard deviation of `공급가액` — but NO average (or total) of
`세액` and no total transaction count, although the claim (and the
caller `app.py`, lines 170-174, which indexes `총_세액`, `평균_세액` and
`거래_건수` and therefore raises `KeyError` on every run) requires the
average of `tax_amount`. -/
theorem kpi_fields (df : List Row) (hdf : df ≠ []) :
    (calculateKpis df).map Prod.fst =
      ["총_매출", "총_매입", "총_비용", "총_수익", "매출_건수", "매입_건수",
       "비용_건수", "수익_건수", "전자_발행_비율", "최대_거래", "최소_거래",
       "거래_표준편차"] ∧
    "평균_세액" ∉ (calculateKpis df).map Prod.fst ∧
    "총_세액" ∉ (calculateKpis df).map Prod.fst ∧
    "거래_건수" ∉ (calculateKpis df).map Prod.fst ∧
    (calculateKpis df).lookup "총_매출" =
      some (.num (supplySum (typeFilter df "매출"))) ∧
    (calculateKpis df).lookup "총_매입" =
      some (.num (supplySum (typeFilter df "매입"))) ∧
    (calculateKpis df).lookup "총_비용" =
      some (.num (supplySum (typeFilter df "비용"))) ∧
    (calculateKpis df).lookup "총_수익" =
      some (.num (supplySum (typeFilter df "수익"))) ∧
    (calculateKpis df).lookup "매출_건수" =
      some (.num ((df.countP (fun r => r.ttype == some "매출") : ℚ))) ∧
    (calculateKpis df).lookup "매입_건수" =
      some (.num ((df.countP (fun r => r.ttype == some "매입") : ℚ))) ∧
    (calculateKpis df).lookup "전자_발행_비율" =
      some (.num ((df.countP (fun r => r.form == some "전자") : ℚ) /
        (df.length : ℚ) * 100)) ∧
    (calculateKpis df).lookup "최대_거래" =
      some (.num (listMaxD (presentSupplies df))) ∧
    (calculateKpis df).lookup "최소_거래" =
      some (.num (listMinD (presentSupplies df))) ∧
    (calculateKpis df).lookup "거래_표준편차" =
      some (.sqrtOf (sampleVar (presentSupplies df))) := by
  have hne : df.isEmpty = false := by
    simp [List.isEmpty_iff, hdf]
  refine ⟨?_, ?_, ?_, ?_, ?_, ?_, ?_, ?_, ?_, ?_, ?_, ?_, ?_, ?_⟩ <;>
    simp only [calculateKpis, hne, Bool.false_eq_true, if_false] <;>
    try rfl
  · simp only [List.map_cons, List.map_nil]; decide
  · simp only [List.map_cons, List.map_nil]; decide
  · simp only [List.map_cons, List.map_nil]; decide
  · rw [List.countP_eq_length_filter]; rfl
  · rw [List.countP_eq_length_filter]; rfl
  · rw [List.countP_eq_length_filter]; rfl

theorem invalid_ext_sub_strict (fr : Frame) :
    ∀ v ∈ invalidTypesExt fr, v ∈ invalidTypesStrict fr := by
  intro v hv
  unfold invalidTypesExt invalidCatVals at hv
  rw [mem_firstDedup, List.mem_filter] at hv
  obtain ⟨hvmem, hpred⟩ := hv
  unfold invalidTypesStrict invalidCatVals
  rw [mem_firstDedup, List.mem_filter]
  refine ⟨hvmem, ?_⟩
  simp only [Bool.not_eq_true', decide_eq_false_iff_not] at hpred ⊢
  intro hmem
  apply hpred
  simp only [validTypesStrict, validTypesExt, List.map_cons, List.map_nil,
    List.mem_cons, List.not_mem_nil, or_false] at hmem ⊢
  tauto

/-- C7: behaviour of the two Schema Validator variants.  A frame missing
a required column makes both variants fail with exactly the error message
that carries the list of the missing columns (and every absent required
column is in that list).  On a frame with all required columns, numeric
amount dtypes and some `거래유형` value outside the permitted set, the
lenient variant passes with a warning naming the invalid values while the
strict variant fails naming its (superset) list of invalid values; with
valid strict types but an out-of-set `발행형태`, the lenient variant
passes with the forms warning and the strict variant fails naming exactly
the same offending form values. -/
theorem schema_validator_variants (f1 f2 f3 : Frame) (c : String)
    (v : Option String)
    (hc : c ∈ requiredColumns) (hcf : c ∉ f1.cols)
    (h1 : missingColsOf f1 ≠ [])
    (h2m : missingColsOf f2 = []) (h2s : f2.supplyNumeric = true)
    (h2t : f2.taxNumeric = true) (h2i : invalidTypesExt f2 ≠ [])
    (hv : v ∈ invalidTypesExt f2)
    (h3m : missingColsOf f3 = []) (h3s : f3.supplyNumeric = true)
    (h3t : f3.taxNumeric = true) (h3i : invalidTypesStrict f3 = [])
    (h3f : invalidFormsOf f3 ≠ []) :
    c ∈ missingColsOf f1 ∧
    validateLenient f1 = ⟨false, [.errMissingColumns (missingColsOf f1)]⟩ ∧
    validateStrict f1 = ⟨false, [.errMissingColumns (missingColsOf f1)]⟩ ∧
    (validateLenient f2).ok = true ∧
    VMsg.warnInvalidTypes (invalidTypesExt f2) ∈ (validateLenient f2).msgs ∧
    validateStrict f2 = ⟨false, [.errInvalidTypes (invalidTypesStrict f2)]⟩ ∧
    v ∈ invalidTypesStrict f2 ∧
    validateLenient f3 = ⟨true, [.warnInvalidForms (invalidFormsOf f3)]⟩ ∧
    validateStrict f3 = ⟨false, [.errInvalidForms (invalidFormsOf f3)]⟩ := by
  have h2i' : invalidTypesStrict f2 ≠ [] := by
    obtain ⟨w, hw⟩ := List.exists_mem_of_ne_nil _ h2i
    exact List.ne_nil_of_mem (invalid_ext_sub_strict f2 w hw)
  have h3e : invalidTypesExt f3 = [] := by
    by_contra h
    obtain ⟨w, hw⟩ := List.exists_mem_of_ne_nil _ h
    have hmem := invalid_ext_sub_strict f3 w hw
    rw [h3i] at hmem
    exact absurd hmem (List.not_mem_nil w)
  refine ⟨?_, ?_, ?_, ?_, ?_, ?_, ?_, ?_, ?_⟩
  · unfold missingColsOf
    rw [List.mem_filter]
    exact ⟨hc, by simp [hcf]⟩
  · simp only [validateLenient]
    rw [if_pos h1]
  · simp only [validateStrict]
    rw [if_pos h1]
  · simp only [validateLenient]
    rw [if_neg (by simp [h2m])]
  · simp only [validateLenient]
    rw [if_neg (by simp [h2m]), if_pos h2i]
    exact List.mem_append_left _ (List.mem_cons_self _ _)
  · simp only [validateStrict]
    rw [if_neg (by simp [h2m]), h2s, h2t]
    simp only [Bool.not_true, Bool.false_eq_true, if_false]
    rw [if_pos h2i']
  · exact invalid_ext_sub_strict f2 v hv
  · simp only [validateLenient]
    rw [if_neg (by simp [h3m]), if_neg (by simp [h3e]), if_pos h3f]
    rfl
  · simp only [validateStrict]
    rw [if_neg (by simp [h3m]), h3s, h3t]
    simp only [Bool.not_true, Bool.false_eq_true, if_false]
    rw [if_neg (by simp [h3i]), if_pos h3f]

/-- Witness for C7: the frame `frMissingTax` (no `세액` column), the
frame `frBadType` (a `증여` transaction type) and the frame `frBadForm`
(a `팩스` issuance form). -/
theorem schema_validator_variants_witness :
    "세액" ∈ missingColsOf frMissingTax ∧
    validateLenient frMissingTax =
      ⟨false, [.errMissingColumns (missingColsOf frMissingTax)]⟩ ∧
    validateStrict frMissingTax =
      ⟨false, [.errMissingColumns (missingColsOf frMissingTax)]⟩ ∧
    (validateLenient frBadType).ok = true ∧
    VMsg.warnInvalidTypes (invalidTypesExt frBadType) ∈
      (validateLenient frBadType).msgs ∧
    validateStrict frBadType =
      ⟨false, [.errInvalidTypes (invalidTypesStrict frBadType)]⟩ ∧
    some "증여" ∈ invalidTypesStrict frBadType ∧
    validateLenient frBadForm =
      ⟨true, [.warnInvalidForms (invalidFormsOf frBadForm)]⟩ ∧
    validateStrict frBadForm =
      ⟨false, [.errInvalidForms (invalidFormsOf frBadForm)]⟩ :=
  schema_validator_variants frMissingTax frBadType frBadForm "세액"
    (some "증여") (by decide) (by decide) (by decide) (by decide) (by decide)
    (by decide) (by decide) (by decide) (by decide) (by decide) (by decide)
    (by decide) (by decide)

theorem map_fst_filter_comp {α β : Type} (q : α → Bool) (l : List (α × β)) :
    (l.filter (q ∘ Prod.fst)).map Prod.fst = (l.map Prod.fst).filter q := by
  induction l with
  | nil => rfl
  | cons a t ih =>
    by_cases hq : q a.1 <;> simp [List.filter, Function.comp, hq, ih]

theorem presentSupplies_zip (df : List Row) (ls : List Int)
    (h : ls.length = df.length) :
    presentSupplies (df.zip ls) = presentSupplies df := by
  have h1 : (df.zip ls).map Prod.fst = df :=
    List.map_fst_zip df ls (le_of_eq h.symm)
  calc presentSupplies (df.zip ls)
      = ((df.zip ls).map Prod.fst).filterMap Row.supply := by
        rw [List.filterMap_map]
        rfl
    _ = presentSupplies df := by rw [h1]; rfl

theorem presentTaxes_zip (df : List Row) (ls : List Int)
    (h : ls.length = df.length) :
    presentTaxes (df.zip ls) = presentTaxes df := by
  have h1 : (df.zip ls).map Prod.fst = df :=
    List.map_fst_zip df ls (le_of_eq h.symm)
  calc presentTaxes (df.zip ls)
      = ((df.zip ls).map Prod.fst).filterMap Row.tax := by
        rw [List.filterMap_map]
        rfl
    _ = presentTaxes df := by rw [h1]; rfl

theorem supplyFlag_zip (df : List Row) (ls : List Int)
    (h : ls.length = df.length) (p : Row × Int) :
    supplyFlag (df.zip ls) p = supplyFlag df p.1 := by
  unfold supplyFlag
  rw [presentSupplies_zip df ls h]
  rfl

theorem taxFlag_zip (df : List Row) (ls : List Int)
    (h : ls.length = df.length) (p : Row × Int) :
    taxFlag (df.zip ls) p = taxFlag df p.1 := by
  unfold taxFlag
  rw [presentTaxes_zip df ls h]
  rfl

theorem cleanSubset_zip (df : List Row) (ls : List Int)
    (h : ls.length = df.length) :
    (cleanSubset (df.zip ls)).map Prod.fst = cleanSubset df := by
  have e1 : (fun r : Row × Int => rowComplete r)
      = ((fun r : Row => rowComplete r) ∘ Prod.fst) := rfl
  have e2 : (fun r : Row × Int => !supplyFlag (df.zip ls) r)
      = ((fun r : Row => !supplyFlag df r) ∘ Prod.fst) := by
    funext p
    simp [Function.comp, supplyFlag_zip df ls h p]
  have e3 : (fun r : Row × Int => !taxFlag (df.zip ls) r)
      = ((fun r : Row => !taxFlag df r) ∘ Prod.fst) := by
    funext p
    simp [Function.comp, taxFlag_zip df ls h p]
  unfold cleanSubset
  rw [e1, e2, e3, map_fst_filter_comp, map_fst_filter_comp,
    map_fst_filter_comp, List.map_fst_zip df ls (le_of_eq h.symm)]

theorem cleanStats_zip (df : List Row) (ls : List Int)
    (h : ls.length = df.length) :
    cleanStats (df.zip ls) = cleanStats df := by
  have hzlen : (df.zip ls).length = df.length := by
    rw [List.length_zip, h, min_self]
  have hclen : (cleanSubset (df.zip ls)).length = (cleanSubset df).length := by
    rw [← cleanSubset_zip df ls h, List.length_map]
  have hmiss : missingTotal (df.zip ls) = missingTotal df := by
    unfold missingTotal
    have e : ((df.zip ls).map fun p => QRow.missingCount p)
        = ((df.zip ls).map Prod.fst).map fun r : Row => QRow.missingCount r := by
      rw [List.map_map]
      rfl
    rw [e, List.map_fst_zip df ls (le_of_eq h.symm)]
  have hout : outlierRowCount (df.zip ls) = outlierRowCount df := by
    unfold outlierRowCount
    have e : (fun r : Row × Int =>
          supplyFlag (df.zip ls) r || taxFlag (df.zip ls) r)
        = ((fun r : Row => supplyFlag df r || taxFlag df r) ∘ Prod.fst) := by
      funext p
      simp [Function.comp, supplyFlag_zip df ls h p, taxFlag_zip df ls h p]
    rw [e, ← List.length_map _ Prod.fst, map_fst_filter_comp,
      List.map_fst_zip df ls (le_of_eq h.symm)]
  unfold cleanStats
  rw [hzlen, hclen, hmiss, hout]

/-- C9: noninterference of the Rule-Based Quality Filter from the Outlier
Model's labels.  Attaching any `이상치` label column to a table changes
nothing in the filter's behaviour: the clean subset of the labeled table
is exactly the labeled version of the clean subset of the original (so the
same set of rows is removed), the clean counts coincide, and the whole
summary dictionary (original, clean, removed, quality ratio, missing and
outlier percentages) is identical. -/
theorem filter_label_noninterference (df : List Row) (ls : List Int)
    (h : ls.length = df.length) :
    (cleanSubset (df.zip ls)).map Prod.fst = cleanSubset df ∧
    (cleanSubset (df.zip ls)).length = (cleanSubset df).length ∧
    cleanStats (df.zip ls) = cleanStats df := by
  refine ⟨cleanSubset_zip df ls h, ?_, cleanStats_zip df ls h⟩
  rw [← cleanSubset_zip df ls h, List.length_map]

/-- Witness for C9 at the two-row table `tTwo` with labels `[-1, 1]`. -/
theorem filter_label_noninterference_witness :
    (cleanSubset (tTwo.zip [-1, 1])).map Prod.fst = cleanSubset tTwo ∧
    (cleanSubset (tTwo.zip [-1, 1])).length = (cleanSubset tTwo).length ∧
    cleanStats (tTwo.zip [-1, 1]) = cleanStats tTwo :=
  filter_label_noninterference tTwo [-1, 1] rfl

/-- Witness for C6 at the two-row table `tTwo`. -/
theorem kpi_fields_witness :
    (calculateKpis tTwo).map Prod.fst =
      ["총_매출", "총_매입", "총_비용", "총_수익", "매출_건수", "매입_건수",
       "비용_건수", "수익_건수", "전자_발행_비율", "최대_거래", "최소_거래",
       "거래_표준편차"] ∧
    "평균_세액" ∉ (calculateKpis tTwo).map Prod.fst ∧
    "총_세액" ∉ (calculateKpis tTwo).map Prod.fst ∧
    "거래_건수" ∉ (calculateKpis tTwo).map Prod.fst ∧
    (calculateKpis tTwo).lookup "총_매출" =
      some (.num (supplySum (typeFilter tTwo "매출"))) ∧
    (calculateKpis tTwo).lookup "총_매입" =
      some (.num (supplySum (typeFilter tTwo "매입"))) ∧
    (calculateKpis tTwo).lookup "총_비용" =
      some (.num (supplySum (typeFilter tTwo "비용"))) ∧
    (calculateKpis tTwo).lookup "총_수익" =
      some (.num (supplySum (typeFilter tTwo "수익"))) ∧
    (calculateKpis tTwo).lookup "매출_건수" =
      some (.num ((tTwo.countP (fun r => r.ttype == some "매출") : ℚ))) ∧
    (calculateKpis tTwo).lookup "매입_건수" =
      some (.num ((tTwo.countP (fun r => r.ttype == some "매입") : ℚ))) ∧
    (calculateKpis tTwo).lookup "전자_발행_비율" =
      some (.num ((tTwo.countP (fun r => r.form == some "전자") : ℚ) /
        (tTwo.length : ℚ) * 100)) ∧
    (calculateKpis tTwo).lookup "최대_거래" =
      some (.num (listMaxD (presentSupplies tTwo))) ∧
    (calculateKpis tTwo).lookup "최소_거래" =
      some (.num (listMinD (presentSupplies tTwo))) ∧
    (calculateKpis tTwo).lookup "거래_표준편차" =
      some (.sqrtOf (sampleVar (presentSupplies tTwo))) :=
  kpi_fields tTwo (by decide)

theorem scoreFromStats_eq {r m d : ℚ} (hr0 : 0 ≤ r) (hr1 : r ≤ 1)
    (hm : 0 ≤ m) (hd : 0 ≤ d) :
    scoreFromStats r m d = 40 * r + 30 * squash m + 30 * squash d := by
  unfold scoreFromStats
  apply clamp100_of
  · have h1 := squash_nonneg hm
    have h2 := squash_nonneg hd
    linarith
  · have h1 := squash_lt_one hm
    have h2 := squash_lt_one hd
    linarith

/-- C10 (Risk Scorer modelled from the spec, which has no counterpart in
the source): the composite score of every labeled table lies in
`[0, 100]`; and with all else equal the score strictly increases in the
anomaly rate (within its range `[0, 1]`) and strictly increases in the
anomalous-mean/normal-mean ratio (on its nonnegative range). -/
theorem risk_score_contract (t : List (Row × Int)) (r₁ r₂ m d n₁ m₁ m₂ d₁ : ℚ)
    (hr₁ : 0 ≤ r₁) (hr : r₁ < r₂) (hr₂ : r₂ ≤ 1) (hm : 0 ≤ m) (hd : 0 ≤ d)
    (hn₁ : 0 ≤ n₁) (hn₂ : n₁ ≤ 1) (hm₁ : 0 ≤ m₁) (hmm : m₁ < m₂)
    (hd₁ : 0 ≤ d₁) :
    (0 ≤ riskScore t ∧ riskScore t ≤ 100) ∧
    scoreFromStats r₁ m d < scoreFromStats r₂ m d ∧
    scoreFromStats n₁ m₁ d₁ < scoreFromStats n₁ m₂ d₁ := by
  refine ⟨?_, ?_, ?_⟩
  · unfold riskScore
    by_cases hz : (anomSubset t).length = 0
    · rw [if_pos hz]
      norm_num
    · rw [if_neg hz]
      exact ⟨clamp100_nonneg _, clamp100_le _⟩
  · rw [scoreFromStats_eq hr₁ (le_of_lt (lt_of_lt_of_le hr hr₂)) hm hd,
      scoreFromStats_eq (le_trans hr₁ hr.le) hr₂ hm hd]
    linarith
  · rw [scoreFromStats_eq hn₁ hn₂ hm₁ hd₁,
      scoreFromStats_eq hn₁ hn₂ (le_trans hm₁ hmm.le) hd₁]
    have hsq := squash_strict hm₁ hmm
    linarith

/-- Witness for C10 at the labeled table `tLab` and at the concrete
statistics `(0, 1, 1) < (1/2, 1, 1)` for the rate and
`(1/2, 1, 1) < (1/2, 2, 1)` for the mean ratio. -/
theorem risk_score_contract_witness :
    (0 ≤ riskScore tLab ∧ riskScore tLab ≤ 100) ∧
    scoreFromStats 0 1 1 < scoreFromStats (1/2) 1 1 ∧
    scoreFromStats (1/2) 1 1 < scoreFromStats (1/2) 2 1 :=
  risk_score_contract tLab 0 (1/2) 1 1 (1/2) 1 2 1
    (by with_unfolding_all decide) (by with_unfolding_all decide)
    (by with_unfolding_all decide) (by with_unfolding_all decide)
    (by with_unfolding_all decide) (by with_unfolding_all decide)
    (by with_unfolding_all decide) (by with_unfolding_all decide)
    (by with_unfolding_all decide) (by with_unfolding_all decide)

end TaxData
